import Mathlib

/-!
Verification development for the DevReports Explorer repository.

The repository contains two near-identical scripts, `app.py` (Streamlit UI)
and `dash-app.py` (Dash UI).  Both load CSV files of paragraph records,
filter the paragraphs by a case-insensitive topic substring, page through
the filtered results, and decorate each shown paragraph with a memoized
call to an external language-model API.

This file is a shallow embedding of that logic:

* a dataframe is a list of rows, a row an association list from column
  name to an optional string cell (`none` models a pandas NaN);
* file reading and the HTTP call are passed in as explicit environment
  functions returning `Except`；
* Streamlit's `st.error`/`st.stop` and the Dash callbacks' raised
  exceptions are both modelled by the `Except.error` outcome;
* `functools.lru_cache` and `st.cache_data` are modelled by explicit
  cache states threaded through the calls.
-/

/-! ## Data model: cells, rows, frames -/

/-- A cell of a dataframe: `some s` is a string value, `none` models a
missing value (pandas NaN). -/
abbrev Cell := Option String

/-- A dataframe row: association list from column name to cell. -/
abbrev Row := List (String × Cell)

/-- A dataframe: its column names and its rows.  Row order is the frame's
index order; after `pd.concat(..., ignore_index=True)` the index is the
list position, so the list representation carries the fresh contiguous
index implicitly. -/
structure Frame where
  cols : List String
  rows : List Row
deriving DecidableEq

/-- Value of column `c` in row `r`: `none` when the row has no binding for
`c` (the column is absent), `some v` when it has cell `v`. -/
def cellOf : Row → String → Option Cell
  | [], _ => none
  | e :: t, c => if e.1 = c then some e.2 else cellOf t c

/-- Column assignment on one row, as in `df['organization'] = org`: any
previous binding for `c` is replaced by the string value `v`. -/
def setCell (r : Row) (c : String) (v : String) : Row :=
  (c, some v) :: r.filter (fun e => decide (e.1 ≠ c))

/-- Column assignment `df[c] = v` on a whole frame: every row gets the
value `v` in column `c`, and `c` is appended to the columns when new. -/
def Frame.setCol (f : Frame) (c : String) (v : String) : Frame :=
  { cols := if c ∈ f.cols then f.cols else f.cols ++ [c],
    rows := f.rows.map (fun r => setCell r c v) }

/-- Row-wise concatenation `pd.concat(dfs, ignore_index=True)`: the rows
are appended in order (fresh contiguous index = list position) and the
column set is the union of the frames' columns. -/
def concatFrames (dfs : List Frame) : Frame :=
  { cols := (dfs.flatMap Frame.cols).dedup,
    rows := dfs.flatMap Frame.rows }

/-! ## Topic filtering (`filter_data` in app.py line 58, the inline
filter in dash-app.py line 243) -/

/-- The characters of `s` lowercased, as `str.lower()` does before the
`case=False` comparison of `pandas.Series.str.contains`. -/
def lowerChars (s : String) : List Char :=
  s.data.map Char.toLower

/-- Matching a Python regular-expression pattern at the start of a text,
for the fragment of patterns the development exercises: a pattern
character `.` matches any text character except a newline, and every
other pattern character matches case-insensitively (`re.IGNORECASE`,
which `case=False` sets).  Fuller regex syntax (repetition, classes,
anchors, groups) is outside this model: no theorem below is stated for
a topic using it. -/
def reMatchHere : List Char → List Char → Bool
  | [], _ => true
  | _ :: _, [] => false
  | pc :: ps, tc :: ts =>
    ((pc = '.' && !(tc = '\n')) || pc.toLower = tc.toLower) && reMatchHere ps ts

/-- `re.search`: the pattern matches at some position of the text. -/
def reSearch : List Char → List Char → Bool
  | pat, [] => reMatchHere pat []
  | pat, tc :: ts => reMatchHere pat (tc :: ts) || reSearch pat ts

/-- `hay.contains(pat, case=False)` of `pandas.Series.str`: with its
default `regex=True` the topic is a regular-expression pattern searched
case-insensitively, not a literal substring. -/
def str_contains (hay pat : String) : Bool :=
  reSearch pat.data hay.data

/-- The characters `re` treats specially (the set `re.escape` escapes):
a topic free of them is matched as a literal string. -/
def isReMeta (c : Char) : Bool :=
  c = '.' || c = '^' || c = '$' || c = '*' || c = '+' || c = '?' ||
    c = '{' || c = '}' || c = '[' || c = ']' || c = '\\' || c = '|' ||
    c = '(' || c = ')'

/-- One row passes the topic filter when its `paragraph` cell is a string
the topic pattern matches somewhere; a missing binding or a NaN cell
fails the filter (`na=False`). -/
def rowMatches (r : Row) (topic : String) : Bool :=
  match cellOf r "paragraph" with
  | some (some p) => str_contains p topic
  | _ => false

/-- `filter_data(df, topic)` =
`df[df['paragraph'].str.contains(topic, case=False, na=False)]`
(app.py lines 58-59; the same expression appears in dash-app.py line 243). -/
def filter_data (df : Frame) (topic : String) : Frame :=
  { cols := df.cols, rows := df.rows.filter (fun r => rowMatches r topic) }

/-! ## CSV discovery (`get_org_files` in dash-app.py lines 85-89,
app.py lines 104-110) -/

/-- Python `f.endswith(".csv")`. -/
def hasCsvExt (f : String) : Bool :=
  decide (List.IsSuffix ".csv".data f.data)

/-- Python `os.path.splitext(f)[0]` for a plain file name: the name cut
at its last dot, except that when every character before that dot is
itself a dot (a leading-dot file such as `.csv`) there is no extension
and the whole name is returned. -/
def splitextBase (p : String) : String :=
  match p.data.reverse.findIdx? (fun c => c = '.') with
  | none => p
  | some j =>
    let d := p.data.length - 1 - j
    if (p.data.take d).any (fun c => c ≠ '.') then String.mk (p.data.take d) else p

/-- `csv_files = [f for f in os.listdir('.') if f.endswith('.csv')]`,
with the directory listing passed in as `files`. -/
def csv_files (files : List String) : List String :=
  files.filter (fun f => hasCsvExt f)

/-- `org_names = [os.path.splitext(f)[0] for f in csv_files]`. -/
def org_names (files : List String) : List String :=
  (csv_files files).map splitextBase

/-- `dropdown_options = ["All"] + org_names` (app.py line 107; dash-app.py
builds the same list of dropdown options in `update_dropdown_options`). -/
def dropdown_options (files : List String) : List String :=
  "All" :: org_names files

/-- One step of building a Python dict: assigning to an existing key
updates its value in place, a new key is appended. -/
def dictInsert (acc : List (String × String)) (kv : String × String) :
    List (String × String) :=
  if acc.any (fun e => decide (e.1 = kv.1)) then
    acc.map (fun e => if e.1 = kv.1 then (e.1, kv.2) else e)
  else acc ++ [kv]

/-- A Python dict built from a list of key-value pairs (`dict(zip(...))`):
unique keys, last assignment wins, first-insertion order. -/
def dictOf (l : List (String × String)) : List (String × String) :=
  l.foldl dictInsert []

/-- `org_to_file = dict(zip(org_names, csv_files))`. -/
def org_to_file (files : List String) : List (String × String) :=
  dictOf ((org_names files).zip (csv_files files))

/-- Lookup in a dict represented as a unique-key association list
(`org_to_file[selected_option]`, `none` models the KeyError case). -/
def dictGet : List (String × String) → String → Option String
  | [], _ => none
  | e :: t, k => if e.1 = k then some e.2 else dictGet t k

/-! ## Loading (`load_data` in app.py lines 11-55 and dash-app.py
lines 24-56) -/

/-- One iteration of the `"All"` loop of `load_data`: read the file, add
the `organization` column on success, skip the file on any exception
(the error is displayed with `st.error` / printed, which the embedding
does not model). -/
def loadOne (readCsv : String → Except String Frame) (org file : String) :
    Option Frame :=
  match readCsv file with
  | .ok df => some (df.setCol "organization" org)
  | .error _ => none

/-- `load_data(selected_option, org_to_file)` of both scripts, with
`pd.read_csv` passed in as `readCsv`.  Every abnormal exit — `st.error`
followed by `st.stop` in app.py, a raised exception in dash-app.py —
is the `Except.error` outcome.  For `"All"`: load and concatenate every
readable file, fail when none loads or when the combined frame has no
`paragraph` column.  Otherwise: load the selected organization's file,
add its `organization` column, and require the `paragraph` column. -/
def load_data (readCsv : String → Except String Frame) (selected : String)
    (orgToFile : List (String × String)) : Except String Frame :=
  if selected = "All" then
    let dfs := orgToFile.filterMap (fun p => loadOne readCsv p.1 p.2)
    if dfs.isEmpty then
      .error "No CSV files found in the directory."
    else
      let combined := concatFrames dfs
      if "paragraph" ∈ combined.cols then .ok combined
      else .error "One or more CSV files are missing required columns."
  else
    match dictGet orgToFile selected with
    | none => .error "KeyError"
    | some file =>
      match readCsv file with
      | .error e => .error e
      | .ok df =>
        let df2 := df.setCol "organization" selected
        if "paragraph" ∈ df2.cols then .ok df2
        else .error "The selected CSV file must contain the required columns."

/-! ## Display-time metadata access (app.py lines 195-204, dash-app.py
lines 255-262) -/

/-- Python `str.strip()`: leading and trailing whitespace removed. -/
def pyStrip (s : String) : String :=
  String.mk (((s.data.dropWhile Char.isWhitespace).reverse.dropWhile
    Char.isWhitespace).reverse)

/-- The `message` object of one response choice. -/
structure Message where
  content : String
deriving DecidableEq

/-- One choice of a chat-completion response. -/
structure Choice where
  message : Message
deriving DecidableEq

/-- A chat-completion response: its list of choices. -/
structure Response where
  choices : List Choice
deriving DecidableEq

/-- The prompt built by `generate_insight` (app.py lines 68-71). -/
def insight_prompt (paragraph topic : String) : String :=
  "Provide a plain text insigthful synthesis title in Sentence case related to '"
    ++ topic ++ "' based on the following paragraph:\n\n" ++ paragraph ++ "\n\nInsight:"

/-- The prompt built by `generate_synthesis` (dash-app.py lines 61-64). -/
def synthesis_prompt (paragraph topic : String) : String :=
  "Provide a plain text one-line insightful summary for someone interested in '"
    ++ topic ++ "' based on the following paragraph:\n\n" ++ paragraph ++ "\n\nSynthesis:"

/-- The fixed failure string of app.py line 87. -/
def insightFailure : String := "Insight generation failed."

/-- The fixed failure string of dash-app.py line 80. -/
def synthesisFailure : String := "Synthesis generation failed."

/-- Body of `generate_insight(paragraph, topic)` (app.py lines 63-89): the
HTTP call is passed in as `api`, an exception from it or from indexing an
empty `choices` list is caught by the `try` block and yields the fixed
failure string (after an `st.error` message the embedding does not
model); on success the stripped content of the first choice is returned.
The function never propagates an exception: it is total. -/
def generate_insight (api : String → Except String Response)
    (paragraph topic : String) : String :=
  match api (insight_prompt paragraph topic) with
  | .error _ => insightFailure
  | .ok resp =>
    match resp.choices.head? with
    | none => insightFailure
    | some c => pyStrip c.message.content

/-- Body of `generate_synthesis(paragraph, topic)` (dash-app.py lines
60-82), identical to `generate_insight` up to the prompt and the failure
string. -/
def generate_synthesis (api : String → Except String Response)
    (paragraph topic : String) : String :=
  match api (synthesis_prompt paragraph topic) with
  | .error _ => synthesisFailure
  | .ok resp =>
    match resp.choices.head? with
    | none => synthesisFailure
    | some c => pyStrip c.message.content

/-! ## Memoization (`functools.lru_cache` in dash-app.py lines 59, 24;
`st.cache_data` in app.py lines 11, 62) -/

/-- Result of one call through a cache: the returned value, the cache
state after the call, and whether the underlying function body (and so
the external API) actually ran. -/
structure CallResult (K V : Type) where
  value : V
  cache : List (K × V)
  apiCalled : Bool
deriving DecidableEq

/-- The cache entry for key `k`, if present. -/
def lruLookup {K V : Type} [DecidableEq K] (c : List (K × V)) (k : K) :
    Option (K × V) :=
  c.find? (fun e => decide (e.1 = k))

/-- One call through `functools.lru_cache(maxsize=cap)`: on a hit the
stored value is returned without running `f` and the entry becomes most
recent; on a miss `f` runs, the new entry becomes most recent, and when
the cache exceeds `cap` entries the least recently used one is evicted.
The list is kept in most-recent-first order. -/
def cachedCall {K V : Type} [DecidableEq K] (cap : Nat) (f : K → V)
    (c : List (K × V)) (k : K) : CallResult K V :=
  match lruLookup c k with
  | some e =>
    { value := e.2,
      cache := (k, e.2) :: c.eraseP (fun x => decide (x.1 = k)),
      apiCalled := false }
  | none =>
    { value := f k, cache := ((k, f k) :: c).take cap, apiCalled := true }

/-- One call through an unbounded memoization cache (`st.cache_data` sets
neither `ttl` nor `max_entries`, so nothing is ever evicted). -/
def cachedCallU {K V : Type} [DecidableEq K] (f : K → V)
    (c : List (K × V)) (k : K) : CallResult K V :=
  match lruLookup c k with
  | some e => { value := e.2, cache := c, apiCalled := false }
  | none => { value := f k, cache := (k, f k) :: c, apiCalled := true }

/-- `maxsize` of the `lru_cache` on `generate_synthesis`
(dash-app.py line 59). -/
def SYNTHESIS_CACHE_MAXSIZE : Nat := 1000

/-- The memoized `generate_synthesis` of dash-app.py: `lru_cache` keys
the call by its argument tuple `(paragraph, topic)`. -/
def generate_synthesis_cached (api : String → Except String Response)
    (c : List ((String × String) × String)) (paragraph topic : String) :
    CallResult (String × String) String :=
  cachedCall SYNTHESIS_CACHE_MAXSIZE (fun k => generate_synthesis api k.1 k.2)
    c (paragraph, topic)

/-- The memoized `generate_insight` of app.py: `st.cache_data` keys the
call by its argument tuple `(paragraph, topic)` and never evicts. -/
def generate_insight_cached (api : String → Except String Response)
    (c : List ((String × String) × String)) (paragraph topic : String) :
    CallResult (String × String) String :=
  cachedCallU (fun k => generate_insight api k.1 k.2) c (paragraph, topic)

/-- A sequence of calls through `cachedCall`, returning the final cache
state. -/
def runCalls {K V : Type} [DecidableEq K] (cap : Nat) (f : K → V)
    (ks : List K) (c : List (K × V)) : List (K × V) :=
  ks.foldl (fun acc k => (cachedCall cap f acc k).cache) c

/-! ## Pagination (`perform_search` in dash-app.py lines 233-271) -/

/-- `RESULTS_PER_PAGE` (dash-app.py line 21). -/
def RESULTS_PER_PAGE : Nat := 10

/-- What the search callback shows for one page: the sliced rows, the two
button `disabled` flags, and the clamped page number written back to the
`current-page` store. -/
structure PageView where
  shown : List Row
  prevDisabled : Bool
  nextDisabled : Bool
  page : Int
deriving DecidableEq

/-- The pagination fragment of `perform_search` (dash-app.py lines
246-252 and 267-271), applied to the rows of the non-empty filtered
frame: `total_pages = math.ceil(total / RESULTS_PER_PAGE)`,
`current_page = min(max(1, current_page), total_pages)`,
`start = (current_page - 1) * RESULTS_PER_PAGE`, the slice
`iloc[start:start + RESULTS_PER_PAGE]`, and the button states
`current_page == 1` / `current_page >= total_pages`. -/
def paginate (filtered : List Row) (current_page : Int) : PageView :=
  let total := filtered.length
  let totalPages : Int := ((total + RESULTS_PER_PAGE - 1) / RESULTS_PER_PAGE : Nat)
  let page := min (max 1 current_page) totalPages
  let start : Int := (page - 1) * (RESULTS_PER_PAGE : Int)
  { shown := (filtered.drop start.toNat).take RESULTS_PER_PAGE,
    prevDisabled := decide (page = 1),
    nextDisabled := decide (totalPages ≤ page),
    page := page }

/-! ## Streamlit navigation state (app.py lines 116-192) -/

/-- The navigation-button handling and bound clamping of app.py lines
176-187, for a result set of `total` rows: Previous decrements only when
the index is positive, Next increments only below `total - 1`, then the
index is clamped into range. -/
def update_index (cur : Int) (total : Nat) (prevClicked nextClicked : Bool) : Int :=
  let c1 := if prevClicked then (if 0 < cur then cur - 1 else cur) else cur
  let c2 := if nextClicked then (if c1 < (total : Int) - 1 then c1 + 1 else c1) else c1
  let c3 := if (total : Int) ≤ c2 then (total : Int) - 1 else c2
  if c3 < 0 then 0 else c3

/-- The session state the Streamlit app keeps between reruns: the stored
topic and the current paragraph index. -/
structure SessionState where
  topic : String
  current : Int
deriving DecidableEq

/-- app.py lines 126-129: when the entered topic differs from the stored
one, store it and reset the paragraph index to 0; otherwise the state is
untouched. -/
def topic_step (s : SessionState) (entered : String) : SessionState :=
  if s.topic ≠ entered then { topic := entered, current := 0 } else s

/-- One rerun of the Streamlit index pipeline for a non-empty filtered
result set of `total` rows: the topic comparison of lines 126-129
followed by the button handling and clamping of lines 176-187.  The
selected data source influences this state only through `total` (the
size of the new filtered result set); it is not an input of the index
computation. -/
def nav_step (s : SessionState) (entered : String) (total : Nat)
    (prevClicked nextClicked : Bool) : SessionState :=
  let s1 := topic_step s entered
  { s1 with current := update_index s1.current total prevClicked nextClicked }

/-! ## Concrete scenario data used by witnesses and counterexamples -/

/-- The key of the i-th distinct call in the eviction scenario: a
paragraph of i letters and a fixed topic. -/
def demoKey (i : Nat) : String × String := (String.mk (List.replicate i 'a'), "t")

/-- A concrete always-succeeding API environment. -/
def demoApi : String → Except String Response :=
  fun _ => .ok ⟨[⟨⟨"A synthesis"⟩⟩]⟩

/-- A concrete CSV-reading environment with two readable files. -/
def demoRead : String → Except String Frame :=
  fun f =>
    if f = "All.csv" then .ok ⟨["paragraph"], [[("paragraph", some "a")]]⟩
    else if f = "beta.csv" then .ok ⟨["paragraph"], [[("paragraph", some "b")]]⟩
    else .error "not found"

/-- Following the claim's words: the data-source choice offered for a CSV
file is its name with the final ".csv" (four characters) removed.  This
is the specification-side description to compare with the code's
`os.path.splitext`. -/
def remove_csv_ext (f : String) : String :=
  String.mk (f.data.take (f.data.length - 4))

/-! ## Theorems -/

/-- For a pattern free of the `.` wildcard, matching at the start of the
text is prefix equality of the lowercased characters. -/
theorem reMatchHere_prefix_iff (pat : List Char) (h : '.' ∉ pat) :
    ∀ text : List Char, (reMatchHere pat text = true ↔
      List.IsPrefix (pat.map Char.toLower) (text.map Char.toLower)) := by
  induction pat with
  | nil =>
    intro text
    simp [reMatchHere]
  | cons pc ps ih =>
    intro text
    have hpc : pc ≠ '.' := fun hc => h (hc ▸ List.mem_cons_self _ _)
    have hps : '.' ∉ ps := fun hm => h (List.mem_cons_of_mem _ hm)
    cases text with
    | nil => simp [reMatchHere]
    | cons tc ts =>
      simp [reMatchHere, hpc, ih hps ts, List.cons_prefix_cons]

/-- For a pattern free of the `.` wildcard, `re.search` under
`re.IGNORECASE` is exactly case-insensitive substring containment. -/
theorem reSearch_infix_iff (pat : List Char) (h : '.' ∉ pat) :
    ∀ text : List Char, (reSearch pat text = true ↔
      List.IsInfix (pat.map Char.toLower) (text.map Char.toLower)) := by
  intro text
  induction text with
  | nil =>
    simp [reSearch, reMatchHere_prefix_iff pat h]
  | cons tc ts ih =>
    rw [reSearch, Bool.or_eq_true, reMatchHere_prefix_iff pat h, ih,
      List.map_cons, List.infix_cons_iff]

/-- A row passes a metacharacter-free topic filter exactly when its
paragraph cell is a string whose lowercase characters contain the
lowercased topic as an infix. -/
theorem rowMatches_iff (r : Row) (t : String) (h : '.' ∉ t.data) :
    rowMatches r t = true ↔
      ∃ p, cellOf r "paragraph" = some (some p) ∧
        List.IsInfix (lowerChars t) (lowerChars p) := by
  unfold rowMatches str_contains
  cases hc : cellOf r "paragraph" with
  | none => simp
  | some c =>
    cases c with
    | none => simp
    | some p => simp [reSearch_infix_iff t.data h p.data, lowerChars]

/-- A topic free of every regex metacharacter in particular holds no
`.` wildcard. -/
theorem no_meta_no_dot (t : String) (h : ∀ c ∈ t.data, isReMeta c = false) :
    '.' ∉ t.data := by
  intro hmem
  have h2 := h '.' hmem
  exact absurd h2 (by decide)

/-- Claim C1 counterexample: the source filter is
`str.contains(topic, case=False, na=False)` with its default
`regex=True`, so the topic is a regular-expression pattern: for the
topic "a.c" the row whose paragraph is "abc" is kept by the program,
although "a.c" is not a case-insensitive substring of "abc" — the claim
fails as stated for regex-metacharacter topics. -/
theorem claim_C1_counterexample :
    ("a.c" : String) ≠ "" ∧
    ([("paragraph", some "abc")] : Row) ∈
      (filter_data ⟨["paragraph"], [[("paragraph", some "abc")]]⟩ "a.c").rows ∧
    ¬ List.IsInfix (lowerChars "a.c") (lowerChars "abc") :=
  ⟨by decide, by decide, by decide⟩

/-- Claim C1 (amended): for every loaded dataframe and every non-empty
topic containing no regex metacharacter (the topic is then a literal
pattern), the filtering operation returns exactly those rows of the
input whose paragraph cell contains the topic as a case-insensitive
substring; rows with a missing (NaN) paragraph are never included, and
the result is a sublist of the input, so no row outside the input
appears. -/
theorem claim_C1 (df : Frame) (topic : String) (hne : topic ≠ "")
    (hlit : ∀ c ∈ topic.data, isReMeta c = false) (r : Row) :
    (r ∈ (filter_data df topic).rows ↔
      r ∈ df.rows ∧ ∃ p, cellOf r "paragraph" = some (some p) ∧
        List.IsInfix (lowerChars topic) (lowerChars p)) ∧
    (filter_data df topic).rows.Sublist df.rows := by
  refine ⟨?_, List.filter_sublist df.rows⟩
  rw [filter_data]
  simp only [List.mem_filter, rowMatches_iff r topic (no_meta_no_dot topic hlit)]

/-- Witness for claim C1 at a concrete dataframe, metacharacter-free
topic and row. -/
theorem claim_C1_witness :
    ("climate" : String) ≠ "" ∧
    (∀ c ∈ ("climate" : String).data, isReMeta c = false) ∧
    ((([("paragraph", some "The Climate crisis")] : Row) ∈
        (filter_data ⟨["paragraph"],
          [[("paragraph", some "The Climate crisis")]]⟩ "climate").rows ↔
      ([("paragraph", some "The Climate crisis")] : Row) ∈
        (⟨["paragraph"], [[("paragraph", some "The Climate crisis")]]⟩ : Frame).rows ∧
      ∃ p, cellOf [("paragraph", some "The Climate crisis")] "paragraph" =
          some (some p) ∧
        List.IsInfix (lowerChars "climate") (lowerChars p)) ∧
    (filter_data ⟨["paragraph"], [[("paragraph", some "The Climate crisis")]]⟩
        "climate").rows.Sublist
      [[("paragraph", some "The Climate crisis")]]) :=
  ⟨by decide, by decide,
   claim_C1 ⟨["paragraph"], [[("paragraph", some "The Climate crisis")]]⟩
     "climate" (by decide) (by decide) [("paragraph", some "The Climate crisis")]⟩

/-- Claim C8: in the Streamlit app, for a non-empty filtered result set
of `total` rows, the index after the navigation handling is always in
`[0, total - 1]`; Previous at index 0 stays at 0, Next at the last index
stays there, and a stale out-of-range index is clamped into range. -/
theorem claim_C8 (cur : Int) (total : Nat) (prevClicked nextClicked : Bool)
    (h : 0 < total) :
    (0 ≤ update_index cur total prevClicked nextClicked ∧
      update_index cur total prevClicked nextClicked ≤ (total : Int) - 1) ∧
    update_index 0 total true false = 0 ∧
    update_index ((total : Int) - 1) total false true = (total : Int) - 1 := by
  unfold update_index
  refine ⟨?_, ?_, ?_⟩ <;> cases prevClicked <;> cases nextClicked <;>
    simp only [Bool.false_eq_true, if_true, if_false] <;> split_ifs <;> omega

/-- Witness for claim C8 at a stale index 7 of a 3-row result set. -/
theorem claim_C8_witness :
    0 < 3 ∧
    ((0 ≤ update_index 7 3 false true ∧ update_index 7 3 false true ≤ (3 : Int) - 1) ∧
      update_index 0 3 true false = 0 ∧
      update_index ((3 : Int) - 1) 3 false true = (3 : Int) - 1) :=
  ⟨by decide, claim_C8 7 3 false true (by decide)⟩

/-- Claim C9: in the Streamlit app, a changed topic resets the paragraph
index to 0 before filtering; an unchanged topic leaves the session state
untouched by the topic comparison, and on a rerun with the same topic
(for instance after only the data source changed) the index is only
clamped to the new result-set bounds, never reset.  The data source is
not an input of `nav_step`: it can influence the index only through
`total`. -/
theorem claim_C9 (s : SessionState) (entered : String) (total : Nat)
    (h : 0 < total) :
    (s.topic ≠ entered → (topic_step s entered).current = 0) ∧
    (s.topic = entered → topic_step s entered = s) ∧
    (s.topic = entered →
      (nav_step s entered total false false).current =
        if (total : Int) ≤ s.current then (total : Int) - 1
        else if s.current < 0 then 0 else s.current) := by
  refine ⟨?_, ?_, ?_⟩
  · intro hne
    simp [topic_step, hne]
  · intro heq
    simp [topic_step, heq]
  · intro heq
    simp only [nav_step, topic_step, heq, ne_eq, not_true_eq_false, if_neg,
      ite_false]
    unfold update_index
    simp only [Bool.false_eq_true, if_false]
    split_ifs <;> omega

/-- Witness for claim C9: stored topic "ai", same topic re-entered, a
stale index 9 against a new 4-row result set. -/
theorem claim_C9_witness :
    0 < 4 ∧
    ((SessionState.mk "ai" 9).topic ≠ "ai" → (topic_step ⟨"ai", 9⟩ "ai").current = 0) ∧
    ((SessionState.mk "ai" 9).topic = "ai" → topic_step ⟨"ai", 9⟩ "ai" = ⟨"ai", 9⟩) ∧
    ((SessionState.mk "ai" 9).topic = "ai" →
      (nav_step ⟨"ai", 9⟩ "ai" 4 false false).current =
        if (4 : Int) ≤ (SessionState.mk "ai" 9).current then (4 : Int) - 1
        else if (SessionState.mk "ai" 9).current < 0 then 0
        else (SessionState.mk "ai" 9).current) :=
  ⟨by decide, claim_C9 ⟨"ai", 9⟩ "ai" 4 (by decide)⟩

/-- Claim C4: for every paragraph and topic, when the external call
raises, both synthesis functions return their fixed failure string
instead of propagating the exception (they are total functions of the
call's outcome); when the call succeeds with at least one choice, they
return the stripped content of the first choice. -/
theorem claim_C4 (api : String → Except String Response) (paragraph topic e : String)
    (resp : Response) (c : Choice) (rest : List Choice) :
    (api (insight_prompt paragraph topic) = .error e →
      generate_insight api paragraph topic = insightFailure) ∧
    (api (synthesis_prompt paragraph topic) = .error e →
      generate_synthesis api paragraph topic = synthesisFailure) ∧
    (api (insight_prompt paragraph topic) = .ok resp → resp.choices = c :: rest →
      generate_insight api paragraph topic = pyStrip c.message.content) ∧
    (api (synthesis_prompt paragraph topic) = .ok resp → resp.choices = c :: rest →
      generate_synthesis api paragraph topic = pyStrip c.message.content) := by
  refine ⟨?_, ?_, ?_, ?_⟩
  · intro h; simp [generate_insight, h]
  · intro h; simp [generate_synthesis, h]
  · intro h hc; simp [generate_insight, h, hc]
  · intro h hc; simp [generate_synthesis, h, hc]

/-- Witness for claim C4, applied once to an always-failing call and once
to a call that succeeds with one choice. -/
theorem claim_C4_witness :
    ((fun _ => Except.error "boom" : String → Except String Response)
        (insight_prompt "p" "t") = .error "boom" ∧
      generate_insight (fun _ => Except.error "boom") "p" "t" = insightFailure ∧
      generate_synthesis (fun _ => Except.error "boom") "p" "t" = synthesisFailure) ∧
    ((fun _ => Except.ok (Response.mk [Choice.mk ⟨" A title "⟩]) :
        String → Except String Response) (insight_prompt "p" "t") =
        .ok (Response.mk [Choice.mk ⟨" A title "⟩]) ∧
      generate_insight (fun _ => Except.ok (Response.mk [Choice.mk ⟨" A title "⟩]))
        "p" "t" = pyStrip " A title " ∧
      generate_synthesis (fun _ => Except.ok (Response.mk [Choice.mk ⟨" A title "⟩]))
        "p" "t" = pyStrip " A title ") :=
  ⟨⟨rfl,
    (claim_C4 (fun _ => Except.error "boom") "p" "t" "boom"
      (Response.mk [Choice.mk ⟨" A title "⟩]) (Choice.mk ⟨" A title "⟩) []).1 rfl,
    ((claim_C4 (fun _ => Except.error "boom") "p" "t" "boom"
      (Response.mk [Choice.mk ⟨" A title "⟩]) (Choice.mk ⟨" A title "⟩) []).2).1 rfl⟩,
   ⟨rfl,
    ((claim_C4 (fun _ => Except.ok (Response.mk [Choice.mk ⟨" A title "⟩]))
      "p" "t" "e" (Response.mk [Choice.mk ⟨" A title "⟩])
      (Choice.mk ⟨" A title "⟩) []).2.2).1 rfl rfl,
    ((claim_C4 (fun _ => Except.ok (Response.mk [Choice.mk ⟨" A title "⟩]))
      "p" "t" "e" (Response.mk [Choice.mk ⟨" A title "⟩])
      (Choice.mk ⟨" A title "⟩) []).2.2).2 rfl rfl⟩⟩

/-- A hit on the bounded LRU cache returns the stored value without
running the body. -/
theorem cachedCall_hit {K V : Type} [DecidableEq K] (cap : Nat) (f : K → V)
    (c : List (K × V)) (k : K) (e : K × V) (h : lruLookup c k = some e) :
    (cachedCall cap f c k).value = e.2 ∧ (cachedCall cap f c k).apiCalled = false := by
  simp [cachedCall, h]

/-- A hit on the unbounded cache returns the stored value without running
the body, and leaves the cache unchanged. -/
theorem cachedCallU_hit {K V : Type} [DecidableEq K] (f : K → V)
    (c : List (K × V)) (k : K) (e : K × V) (h : lruLookup c k = some e) :
    (cachedCallU f c k).value = e.2 ∧ (cachedCallU f c k).apiCalled = false ∧
      (cachedCallU f c k).cache = c := by
  simp [cachedCallU, h]

/-- Claim C10: in both apps the failure string produced when the API
call raises is itself stored in the memoization cache under the key
(paragraph, topic): the first call is a miss that runs the body, stores
the failure string, and returns it; a second call for the same pair
returns the failure string from the cache without running the body (and
so without retrying the API). -/
theorem claim_C10 (api : String → Except String Response)
    (c : List ((String × String) × String)) (paragraph topic e : String)
    (hmiss : lruLookup c (paragraph, topic) = none)
    (herrS : api (synthesis_prompt paragraph topic) = .error e)
    (herrI : api (insight_prompt paragraph topic) = .error e) :
    ((generate_synthesis_cached api c paragraph topic).value = synthesisFailure ∧
      (generate_synthesis_cached api c paragraph topic).apiCalled = true ∧
      lruLookup (generate_synthesis_cached api c paragraph topic).cache
          (paragraph, topic) = some ((paragraph, topic), synthesisFailure) ∧
      (generate_synthesis_cached api
          (generate_synthesis_cached api c paragraph topic).cache
          paragraph topic).value = synthesisFailure ∧
      (generate_synthesis_cached api
          (generate_synthesis_cached api c paragraph topic).cache
          paragraph topic).apiCalled = false) ∧
    ((generate_insight_cached api c paragraph topic).value = insightFailure ∧
      (generate_insight_cached api c paragraph topic).apiCalled = true ∧
      lruLookup (generate_insight_cached api c paragraph topic).cache
          (paragraph, topic) = some ((paragraph, topic), insightFailure) ∧
      (generate_insight_cached api
          (generate_insight_cached api c paragraph topic).cache
          paragraph topic).value = insightFailure ∧
      (generate_insight_cached api
          (generate_insight_cached api c paragraph topic).cache
          paragraph topic).apiCalled = false) := by
  have hbodyS : generate_synthesis api paragraph topic = synthesisFailure := by
    simp [generate_synthesis, herrS]
  have hbodyI : generate_insight api paragraph topic = insightFailure := by
    simp [generate_insight, herrI]
  have hcapS : SYNTHESIS_CACHE_MAXSIZE = 999 + 1 := rfl
  constructor
  · have hcache :
        (generate_synthesis_cached api c paragraph topic).cache =
          ((paragraph, topic), synthesisFailure) :: c.take 999 := by
      simp [generate_synthesis_cached, cachedCall, hmiss, hbodyS, hcapS,
        List.take_succ_cons]
    have hlook :
        lruLookup (generate_synthesis_cached api c paragraph topic).cache
            (paragraph, topic) = some ((paragraph, topic), synthesisFailure) := by
      rw [hcache]
      simp [lruLookup, List.find?]
    refine ⟨?_, ?_, hlook, ?_, ?_⟩
    · simp [generate_synthesis_cached, cachedCall, hmiss, hbodyS]
    · simp [generate_synthesis_cached, cachedCall, hmiss]
    · exact (cachedCall_hit _ _ _ _ _ hlook).1
    · exact (cachedCall_hit _ _ _ _ _ hlook).2
  · have hcache :
        (generate_insight_cached api c paragraph topic).cache =
          ((paragraph, topic), insightFailure) :: c := by
      simp [generate_insight_cached, cachedCallU, hmiss, hbodyI]
    have hlook :
        lruLookup (generate_insight_cached api c paragraph topic).cache
            (paragraph, topic) = some ((paragraph, topic), insightFailure) := by
      rw [hcache]
      simp [lruLookup, List.find?]
    refine ⟨?_, ?_, hlook, ?_, ?_⟩
    · simp [generate_insight_cached, cachedCallU, hmiss, hbodyI]
    · simp [generate_insight_cached, cachedCallU, hmiss]
    · exact (cachedCallU_hit _ _ _ _ hlook).1
    · exact (cachedCallU_hit _ _ _ _ hlook).2.1

/-- Witness for claim C10: an always-failing API, an empty cache, and the
pair ("p", "t"); the repeated call returns the cached failure string
without running the body again. -/
theorem claim_C10_witness :
    lruLookup ([] : List ((String × String) × String)) ("p", "t") = none ∧
    (fun _ => Except.error "boom" : String → Except String Response)
        (synthesis_prompt "p" "t") = .error "boom" ∧
    (generate_synthesis_cached (fun _ => Except.error "boom")
        (generate_synthesis_cached (fun _ => Except.error "boom") [] "p" "t").cache
        "p" "t").value = synthesisFailure ∧
    (generate_synthesis_cached (fun _ => Except.error "boom")
        (generate_synthesis_cached (fun _ => Except.error "boom") [] "p" "t").cache
        "p" "t").apiCalled = false ∧
    (generate_insight_cached (fun _ => Except.error "boom")
        (generate_insight_cached (fun _ => Except.error "boom") [] "p" "t").cache
        "p" "t").apiCalled = false :=
  ⟨rfl, rfl,
   (claim_C10 (fun _ => Except.error "boom") [] "p" "t" "boom" rfl rfl rfl).1.2.2.2.1,
   (claim_C10 (fun _ => Except.error "boom") [] "p" "t" "boom" rfl rfl rfl).1.2.2.2.2,
   (claim_C10 (fun _ => Except.error "boom") [] "p" "t" "boom" rfl rfl rfl).2.2.2.2.2⟩

/-- Claim C2: for a non-empty filtered result set of n rows and any
stored page number p, the Dash search callback shows exactly the window
of row indices [(p2 - 1) * 10, min (p2 * 10) n) where p2 clamps p into
[1, ceil (n / 10)]; Previous is disabled exactly when p2 = 1, Next
exactly when p2 is at least the page count, and the shown page is never
empty. -/
theorem claim_C2 (filtered : List Row) (p : Int) (h : 0 < filtered.length) :
    (paginate filtered p).page =
      min (max 1 p) (((filtered.length + 9) / 10 : Nat) : Int) ∧
    (paginate filtered p).shown.length =
      min ((min (max 1 p) (((filtered.length + 9) / 10 : Nat) : Int)).toNat * 10)
          filtered.length -
        ((min (max 1 p) (((filtered.length + 9) / 10 : Nat) : Int)).toNat - 1) * 10 ∧
    (∀ i : Nat, i < (paginate filtered p).shown.length →
      (paginate filtered p).shown[i]? =
        filtered[((min (max 1 p) (((filtered.length + 9) / 10 : Nat) : Int)).toNat - 1)
          * 10 + i]?) ∧
    ((paginate filtered p).prevDisabled = true ↔
      min (max 1 p) (((filtered.length + 9) / 10 : Nat) : Int) = 1) ∧
    ((paginate filtered p).nextDisabled = true ↔
      (((filtered.length + 9) / 10 : Nat) : Int) ≤
        min (max 1 p) (((filtered.length + 9) / 10 : Nat) : Int)) ∧
    0 < (paginate filtered p).shown.length := by
  have hper : RESULTS_PER_PAGE = 10 := rfl
  set n := filtered.length with hn
  set tp : Nat := (n + 9) / 10 with htp
  set pg : Int := min (max 1 p) (tp : Int) with hpg
  have hpg1 : 1 ≤ pg := by omega
  have hpgtp : pg ≤ (tp : Int) := by omega
  have hstart : ((pg - 1) * (10 : Int)).toNat = (pg.toNat - 1) * 10 := by omega
  have e1 : n + 10 - 1 = n + 9 := by omega
  have hview : paginate filtered p =
      { shown := (filtered.drop ((pg.toNat - 1) * 10)).take 10,
        prevDisabled := decide (pg = 1),
        nextDisabled := decide ((tp : Int) ≤ pg),
        page := pg } := by
    rw [paginate]
    simp only [hper, ← hn, e1, ← htp, Nat.cast_ofNat, ← hpg, hstart]
  rw [hview]
  have hlen : ((filtered.drop ((pg.toNat - 1) * 10)).take 10).length =
      min 10 (n - (pg.toNat - 1) * 10) := by
    simp [List.length_take, List.length_drop, ← hn]
  refine ⟨rfl, ?_, ?_, ?_, ?_, ?_⟩
  · rw [hlen]
    omega
  · intro i hi
    rw [hlen] at hi
    show (List.take 10 (List.drop ((pg.toNat - 1) * 10) filtered))[i]? = _
    rw [List.getElem?_take, if_pos (show i < 10 by omega), List.getElem?_drop]
  · simp
  · simp
  · rw [hlen]
    omega

/-- Witness for claim C2: 23 filtered rows and a stored page number 99,
which clamps to the last page (page 3, rows 20-22). -/
theorem claim_C2_witness :
    0 < (List.replicate 23 ([] : Row)).length ∧
    ((paginate (List.replicate 23 ([] : Row)) 99).page =
      min (max 1 99) ((((List.replicate 23 ([] : Row)).length + 9) / 10 : Nat) : Int) ∧
    (paginate (List.replicate 23 ([] : Row)) 99).shown.length =
      min ((min (max 1 99)
            ((((List.replicate 23 ([] : Row)).length + 9) / 10 : Nat) : Int)).toNat * 10)
          (List.replicate 23 ([] : Row)).length -
        ((min (max 1 99)
            ((((List.replicate 23 ([] : Row)).length + 9) / 10 : Nat) : Int)).toNat - 1) * 10 ∧
    (∀ i : Nat, i < (paginate (List.replicate 23 ([] : Row)) 99).shown.length →
      (paginate (List.replicate 23 ([] : Row)) 99).shown[i]? =
        (List.replicate 23 ([] : Row))[((min (max 1 99)
          ((((List.replicate 23 ([] : Row)).length + 9) / 10 : Nat) : Int)).toNat - 1)
          * 10 + i]?) ∧
    ((paginate (List.replicate 23 ([] : Row)) 99).prevDisabled = true ↔
      min (max 1 99) ((((List.replicate 23 ([] : Row)).length + 9) / 10 : Nat) : Int) = 1) ∧
    ((paginate (List.replicate 23 ([] : Row)) 99).nextDisabled = true ↔
      ((((List.replicate 23 ([] : Row)).length + 9) / 10 : Nat) : Int) ≤
        min (max 1 99) ((((List.replicate 23 ([] : Row)).length + 9) / 10 : Nat) : Int)) ∧
    0 < (paginate (List.replicate 23 ([] : Row)) 99).shown.length) :=
  ⟨by decide, claim_C2 (List.replicate 23 ([] : Row)) 99 (by decide)⟩

/-- The column written by `setCell` reads back as that string value. -/
theorem cellOf_setCell (r : Row) (c v : String) :
    cellOf (setCell r c v) c = some (some v) := by
  simp [setCell, cellOf]

/-- Row-level description of the `"All"` loading loop: the rows of the
successfully loaded frames, each with its organization written in, in
file order. -/
theorem loads_rows (readCsv : String → Except String Frame)
    (otf : List (String × String)) :
    ((otf.filterMap (fun p => loadOne readCsv p.1 p.2)).flatMap Frame.rows) =
      otf.flatMap (fun p =>
        match readCsv p.2 with
        | .ok f => f.rows.map (fun r => setCell r "organization" p.1)
        | .error _ => []) := by
  induction otf with
  | nil => rfl
  | cons p t ih =>
    cases h : readCsv p.2 with
    | ok f =>
      have hl : loadOne readCsv p.1 p.2 = some (f.setCol "organization" p.1) := by
        rw [loadOne, h]
      simp only [List.filterMap_cons, hl, List.flatMap_cons, ih, h, Frame.setCol]
    | error e =>
      have hl : loadOne readCsv p.1 p.2 = none := by
        rw [loadOne, h]
      simp only [List.filterMap_cons, hl, List.flatMap_cons, ih, h, List.nil_append]

/-- Claim C5: when "All" is selected, a successful `load_data` returns
the row-wise concatenation (with the fresh contiguous list index) of
every organization's readable CSV dataset, each row carrying an
`organization` cell naming the organization whose file it came from;
files that fail to read are skipped, and when no file loads at all the
operation fails with an error instead of returning a dataframe. -/
theorem claim_C5 (readCsv : String → Except String Frame)
    (otf : List (String × String)) :
    (∀ df, load_data readCsv "All" otf = .ok df →
      df.rows = otf.flatMap (fun p =>
        match readCsv p.2 with
        | .ok f => f.rows.map (fun r => setCell r "organization" p.1)
        | .error _ => []) ∧
      ∀ r ∈ df.rows, ∃ p ∈ otf, cellOf r "organization" = some (some p.1)) ∧
    ((∀ p ∈ otf, ∃ e, readCsv p.2 = .error e) →
      ∃ e, load_data readCsv "All" otf = .error e) := by
  constructor
  · intro df hdf
    have hrows : df.rows =
        ((otf.filterMap (fun p => loadOne readCsv p.1 p.2)).flatMap Frame.rows) := by
      rw [load_data, if_pos rfl] at hdf
      have hdf2 :
          (if (otf.filterMap (fun p => loadOne readCsv p.1 p.2)).isEmpty = true then
            (Except.error "No CSV files found in the directory." : Except String Frame)
          else if "paragraph" ∈
              (concatFrames (otf.filterMap (fun p => loadOne readCsv p.1 p.2))).cols then
            Except.ok (concatFrames (otf.filterMap (fun p => loadOne readCsv p.1 p.2)))
          else Except.error "One or more CSV files are missing required columns.") =
            Except.ok df := hdf
      split at hdf2
      · exact absurd hdf2 (by simp)
      · split at hdf2
        · cases hdf2
          rfl
        · exact absurd hdf2 (by simp)
    rw [loads_rows] at hrows
    refine ⟨hrows, ?_⟩
    intro r hr
    rw [hrows] at hr
    rcases List.mem_flatMap.mp hr with ⟨p, hp, hrp⟩
    refine ⟨p, hp, ?_⟩
    cases h : readCsv p.2 with
    | ok f =>
      rw [h] at hrp
      rcases List.mem_map.mp hrp with ⟨r0, _, hr0⟩
      rw [← hr0]
      exact cellOf_setCell r0 "organization" p.1
    | error e =>
      rw [h] at hrp
      cases hrp
  · intro hall
    have hnil : otf.filterMap (fun p => loadOne readCsv p.1 p.2) = [] := by
      rw [List.filterMap_eq_nil_iff]
      intro p hp
      rcases hall p hp with ⟨e, he⟩
      simp [loadOne, he]
    refine ⟨"No CSV files found in the directory.", ?_⟩
    rw [load_data, if_pos rfl, hnil]
    rfl

/-- Witness for claim C5: two organizations, one readable file and one
failing file, and separately an environment where every read fails. -/
theorem claim_C5_witness :
    (load_data (fun f => if f = "a.csv"
        then Except.ok ⟨["paragraph"], [[("paragraph", some "x")]]⟩
        else Except.error "io")
      "All" [("a", "a.csv"), ("b", "b.csv")] =
        .ok ⟨["paragraph", "organization"],
          [[("organization", some "a"), ("paragraph", some "x")]]⟩ ∧
      (∀ r ∈ ([[("organization", some "a"), ("paragraph", some "x")]] : List Row),
        ∃ p ∈ [("a", "a.csv"), ("b", "b.csv")],
          cellOf r "organization" = some (some p.1)) ∧
      (∀ p ∈ [("a", "a.csv"), ("b", "b.csv")],
        ∃ e, (fun f => if f = "b.csv"
            then Except.error "io"
            else Except.error "nf" : String → Except String Frame) p.2 = .error e)) ∧
    ∃ e, load_data (fun f => if f = "b.csv"
        then Except.error "io"
        else Except.error "nf")
      "All" [("a", "a.csv"), ("b", "b.csv")] = .error e := by
  have hfail : ∀ p ∈ [(("a" : String), ("a.csv" : String)), ("b", "b.csv")],
      ∃ e, (fun f => if f = "b.csv"
          then Except.error "io"
          else Except.error "nf" : String → Except String Frame) p.2 = .error e := by
    intro p hp
    simp only [List.mem_cons, List.not_mem_nil, or_false] at hp
    rcases hp with rfl | rfl
    · exact ⟨"nf", rfl⟩
    · exact ⟨"io", rfl⟩
  have hok : load_data (fun f => if f = "a.csv"
      then Except.ok ⟨["paragraph"], [[("paragraph", some "x")]]⟩
      else Except.error "io")
      "All" [("a", "a.csv"), ("b", "b.csv")] =
        .ok ⟨["paragraph", "organization"],
          [[("organization", some "a"), ("paragraph", some "x")]]⟩ := by rfl
  have h5 := claim_C5 (fun f => if f = "a.csv"
      then Except.ok ⟨["paragraph"], [[("paragraph", some "x")]]⟩
      else Except.error "io") [("a", "a.csv"), ("b", "b.csv")]
  refine ⟨⟨hok, (h5.1 _ hok).2, hfail⟩, ?_⟩
  exact (claim_C5 (fun f => if f = "b.csv"
      then Except.error "io"
      else Except.error "nf") [("a", "a.csv"), ("b", "b.csv")]).2 hfail

/-- Truncating the tail of an append before truncating the whole append
changes nothing. -/
theorem take_append_take {α : Type} (A B : List α) (n : Nat) :
    (A ++ B.take n).take n = (A ++ B).take n := by
  rw [List.take_append_eq_append_take, List.take_append_eq_append_take,
    List.take_take]
  have h : (n - A.length) ⊓ n = n - A.length := by omega
  rw [h]

/-- A miss on the bounded LRU cache runs the body, stores the new entry
in front, and truncates the cache to the capacity. -/
theorem cachedCall_miss {K V : Type} [DecidableEq K] (cap : Nat) (f : K → V)
    (c : List (K × V)) (k : K) (h : lruLookup c k = none) :
    cachedCall cap f c k =
      { value := f k, cache := ((k, f k) :: c).take cap, apiCalled := true } := by
  simp [cachedCall, h]

/-- Running a sequence of distinct keys that all miss leaves exactly the
most recent `cap` of them in the cache, newest first. -/
theorem runCalls_all_miss {K V : Type} [DecidableEq K] (cap : Nat) (f : K → V)
    (ks : List K) (c : List (K × V)) (hnd : ks.Nodup)
    (hm : ∀ k ∈ ks, lruLookup c k = none) (hc : c.length ≤ cap) :
    runCalls cap f ks c = ((ks.reverse.map (fun k => (k, f k))) ++ c).take cap := by
  induction ks generalizing c with
  | nil =>
    simp [runCalls, List.take_of_length_le hc]
  | cons k ks ih =>
    have hk : lruLookup c k = none := hm k (List.mem_cons_self k ks)
    have hstep : runCalls cap f (k :: ks) c =
        runCalls cap f ks (((k, f k) :: c).take cap) := by
      rw [runCalls, List.foldl_cons, cachedCall_miss cap f c k hk]
      rfl
    rw [hstep]
    have hknotin : k ∉ ks := (List.nodup_cons.mp hnd).1
    have hm2 : ∀ k2 ∈ ks, lruLookup (((k, f k) :: c).take cap) k2 = none := by
      intro k2 hk2
      rw [lruLookup, List.find?_eq_none]
      intro x hx
      have hx2 : x ∈ (k, f k) :: c := List.take_subset _ _ hx
      rcases List.mem_cons.mp hx2 with rfl | hxc
      · simp only [decide_eq_true_eq]
        intro hcontra
        exact hknotin (hcontra ▸ hk2)
      · have h3 := hm k2 (List.mem_cons_of_mem _ hk2)
        rw [lruLookup, List.find?_eq_none] at h3
        exact h3 x hxc
    rw [ih (((k, f k) :: c).take cap) (List.Nodup.of_cons hnd) hm2
      (List.length_take_le _ _)]
    rw [take_append_take, List.reverse_cons, List.map_append, List.map_cons,
      List.map_nil, List.append_assoc, List.singleton_append]

/-- Distinct call indices give distinct (paragraph, topic) keys. -/
theorem demoKey_injective : Function.Injective demoKey := by
  intro i j h
  have h1 : String.mk (List.replicate i 'a') = String.mk (List.replicate j 'a') :=
    congrArg Prod.fst h
  have h2 : List.replicate i 'a' = List.replicate j 'a' := congrArg String.data h1
  have h3 := congrArg List.length h2
  simpa using h3

/-- Claim C3 counterexample: in the Dash app the `lru_cache(maxsize=1000)`
on `generate_synthesis` does evict.  After first calling the pair
`demoKey 0` and then 1000 further distinct pairs, the entry for
`demoKey 0` is no longer cached, and a repeated call for that same pair
invokes the external API again — refuting "a cached entry is never
evicted for the lifetime of the process". -/
theorem claim_C3_counterexample :
    lruLookup (runCalls SYNTHESIS_CACHE_MAXSIZE
        (fun k => generate_synthesis demoApi k.1 k.2)
        ((List.range (SYNTHESIS_CACHE_MAXSIZE + 1)).map demoKey) [])
      (demoKey 0) = none ∧
    (generate_synthesis_cached demoApi
        (runCalls SYNTHESIS_CACHE_MAXSIZE
          (fun k => generate_synthesis demoApi k.1 k.2)
          ((List.range (SYNTHESIS_CACHE_MAXSIZE + 1)).map demoKey) [])
        (demoKey 0).1 (demoKey 0).2).apiCalled = true := by
  have hnd : ((List.range (SYNTHESIS_CACHE_MAXSIZE + 1)).map demoKey).Nodup :=
    (List.nodup_range _).map demoKey_injective
  have hrun := runCalls_all_miss SYNTHESIS_CACHE_MAXSIZE
      (fun k => generate_synthesis demoApi k.1 k.2)
      ((List.range (SYNTHESIS_CACHE_MAXSIZE + 1)).map demoKey) [] hnd
      (fun k _ => rfl) (by simp)
  have hsplit : (List.range (SYNTHESIS_CACHE_MAXSIZE + 1)).map demoKey =
      demoKey 0 ::
        (List.range SYNTHESIS_CACHE_MAXSIZE).map (fun i => demoKey (i + 1)) := by
    rw [List.range_succ_eq_map, List.map_cons, List.map_map]
    rfl
  have hlen2 : (((List.range SYNTHESIS_CACHE_MAXSIZE).map
        (fun i => demoKey (i + 1))).reverse.map
      (fun k => (k, generate_synthesis demoApi k.1 k.2))).length =
        SYNTHESIS_CACHE_MAXSIZE := by
    simp
  have htake : ∀ (L : List ((String × String) × String)) (x : (String × String) × String),
      L.length = SYNTHESIS_CACHE_MAXSIZE →
        (L ++ [x]).take SYNTHESIS_CACHE_MAXSIZE = L := by
    intro L x h
    rw [← h, List.take_left]
  have hcacheEq : runCalls SYNTHESIS_CACHE_MAXSIZE
      (fun k => generate_synthesis demoApi k.1 k.2)
      ((List.range (SYNTHESIS_CACHE_MAXSIZE + 1)).map demoKey) [] =
        ((List.range SYNTHESIS_CACHE_MAXSIZE).map
          (fun i => demoKey (i + 1))).reverse.map
            (fun k => (k, generate_synthesis demoApi k.1 k.2)) := by
    rw [hrun, List.append_nil, hsplit, List.reverse_cons, List.map_append,
      List.map_cons, List.map_nil]
    exact htake (((List.range SYNTHESIS_CACHE_MAXSIZE).map
        (fun i => demoKey (i + 1))).reverse.map
          (fun k => (k, generate_synthesis demoApi k.1 k.2)))
      (demoKey 0, generate_synthesis demoApi (demoKey 0).1 (demoKey 0).2) hlen2
  have hnone : lruLookup (((List.range SYNTHESIS_CACHE_MAXSIZE).map
      (fun i => demoKey (i + 1))).reverse.map
        (fun k => (k, generate_synthesis demoApi k.1 k.2)))
      (demoKey 0) = none := by
    rw [lruLookup, List.find?_eq_none]
    intro x hx
    rcases List.mem_map.mp hx with ⟨k2, hk2, rfl⟩
    rcases List.mem_map.mp (List.mem_reverse.mp hk2) with ⟨i, _, rfl⟩
    simp only [decide_eq_true_eq]
    intro hcontra
    exact absurd (demoKey_injective hcontra) (by omega)
  constructor
  · rw [hcacheEq]
    exact hnone
  · have hmiss : lruLookup (runCalls SYNTHESIS_CACHE_MAXSIZE
        (fun k => generate_synthesis demoApi k.1 k.2)
        ((List.range (SYNTHESIS_CACHE_MAXSIZE + 1)).map demoKey) [])
        (demoKey 0) = none := by
      rw [hcacheEq]
      exact hnone
    show (cachedCall SYNTHESIS_CACHE_MAXSIZE
        (fun k => generate_synthesis demoApi k.1 k.2)
        (runCalls SYNTHESIS_CACHE_MAXSIZE
          (fun k => generate_synthesis demoApi k.1 k.2)
          ((List.range (SYNTHESIS_CACHE_MAXSIZE + 1)).map demoKey) [])
        (demoKey 0)).apiCalled = true
    rw [cachedCall_miss _ _ _ _ hmiss]

/-- Claim C3 (amended): both synthesis-generation calls are memoized
keyed by the pair (paragraph, topic): a call whose pair is currently
cached returns the stored result without invoking the external API.  In
the Streamlit app (`st.cache_data`, no `ttl` or `max_entries`) a cached
entry is never evicted for the lifetime of the process; in the Dash app
`lru_cache(maxsize=1000)` keeps at most 1000 entries, so a cached entry
survives only until it becomes the least recently used of more than
1000 distinct pairs. -/
theorem claim_C3_amended (api : String → Except String Response)
    (c : List ((String × String) × String)) (paragraph topic : String)
    (e : (String × String) × String) :
    (lruLookup c (paragraph, topic) = some e →
      (generate_synthesis_cached api c paragraph topic).value = e.2 ∧
      (generate_synthesis_cached api c paragraph topic).apiCalled = false) ∧
    (lruLookup c (paragraph, topic) = some e →
      (generate_insight_cached api c paragraph topic).value = e.2 ∧
      (generate_insight_cached api c paragraph topic).apiCalled = false) ∧
    (∀ x ∈ c, x ∈ (generate_insight_cached api c paragraph topic).cache) ∧
    (c.length ≤ SYNTHESIS_CACHE_MAXSIZE →
      (generate_synthesis_cached api c paragraph topic).cache.length ≤
        SYNTHESIS_CACHE_MAXSIZE) := by
  refine ⟨?_, ?_, ?_, ?_⟩
  · intro h
    exact cachedCall_hit _ _ _ _ _ h
  · intro h
    exact ⟨(cachedCallU_hit _ _ _ _ h).1, (cachedCallU_hit _ _ _ _ h).2.1⟩
  · intro x hx
    cases h : lruLookup c (paragraph, topic) with
    | some e2 =>
      have hcu : generate_insight_cached api c paragraph topic =
          { value := e2.2, cache := c, apiCalled := false } := by
        rw [generate_insight_cached, cachedCallU, h]
      rw [hcu]
      exact hx
    | none =>
      have hcu : generate_insight_cached api c paragraph topic =
          { value := generate_insight api (paragraph, topic).1 (paragraph, topic).2,
            cache := ((paragraph, topic),
              generate_insight api (paragraph, topic).1 (paragraph, topic).2) :: c,
            apiCalled := true } := by
        rw [generate_insight_cached, cachedCallU, h]
      rw [hcu]
      exact List.mem_cons_of_mem _ hx
  · intro hlen
    cases h : lruLookup c (paragraph, topic) with
    | some e2 =>
      have h2 : c.find? (fun x => decide (x.1 = (paragraph, topic))) = some e2 := h
      have hmem : e2 ∈ c := List.mem_of_find?_eq_some h2
      have hp := List.find?_some h2
      have herase : (c.eraseP (fun x => decide (x.1 = (paragraph, topic)))).length =
          c.length - 1 :=
        List.length_eraseP_of_mem hmem hp
      have hc1 : 1 ≤ c.length := List.length_pos.mpr (by
        intro hce
        rw [hce] at hmem
        cases hmem)
      have hcc : generate_synthesis_cached api c paragraph topic =
          { value := e2.2,
            cache := ((paragraph, topic), e2.2) ::
              c.eraseP (fun x => decide (x.1 = (paragraph, topic))),
            apiCalled := false } := by
        rw [generate_synthesis_cached, cachedCall, h]
      rw [hcc]
      simp only [List.length_cons, herase]
      omega
    | none =>
      have hcc : generate_synthesis_cached api c paragraph topic =
          { value := generate_synthesis api (paragraph, topic).1 (paragraph, topic).2,
            cache := (((paragraph, topic),
              generate_synthesis api (paragraph, topic).1 (paragraph, topic).2) ::
                c).take SYNTHESIS_CACHE_MAXSIZE,
            apiCalled := true } := by
        rw [generate_synthesis_cached, cachedCall, h]
      rw [hcc]
      exact List.length_take_le _ _

/-- Witness for claim C3 (amended): a one-entry cache holding the pair
("p", "t") with value "v". -/
theorem claim_C3_witness :
    lruLookup [((("p" : String), ("t" : String)), ("v" : String))] ("p", "t") =
      some (("p", "t"), "v") ∧
    [((("p" : String), ("t" : String)), ("v" : String))].length ≤
      SYNTHESIS_CACHE_MAXSIZE ∧
    (generate_synthesis_cached demoApi [(("p", "t"), "v")] "p" "t").value = "v" ∧
    (generate_synthesis_cached demoApi [(("p", "t"), "v")] "p" "t").apiCalled = false ∧
    (generate_insight_cached demoApi [(("p", "t"), "v")] "p" "t").value = "v" ∧
    (generate_insight_cached demoApi [(("p", "t"), "v")] "p" "t").apiCalled = false ∧
    (∀ x ∈ [((("p" : String), ("t" : String)), ("v" : String))],
      x ∈ (generate_insight_cached demoApi [(("p", "t"), "v")] "p" "t").cache) ∧
    (generate_synthesis_cached demoApi [(("p", "t"), "v")] "p" "t").cache.length ≤
      SYNTHESIS_CACHE_MAXSIZE := by
  have h := claim_C3_amended demoApi [(("p", "t"), "v")] "p" "t" (("p", "t"), "v")
  have hlook : lruLookup [((("p" : String), ("t" : String)), ("v" : String))]
      (("p" : String), ("t" : String)) = some (("p", "t"), "v") := rfl
  exact ⟨hlook, by decide, (h.1 hlook).1, (h.1 hlook).2, (h.2.1 hlook).1,
    (h.2.1 hlook).2, h.2.2.1, h.2.2.2 (by decide)⟩

/-- A name that passes `endswith(".csv")` decomposes as a base followed
by the four extension characters. -/
theorem csv_decomp (f : String) (h : hasCsvExt f = true) :
    ∃ b : List Char, f.data = b ++ ['.', 'c', 's', 'v'] := by
  have h2 : List.IsSuffix (".csv".data) f.data := of_decide_eq_true h
  rcases h2 with ⟨b, hb⟩
  exact ⟨b, hb.symm⟩

/-- The first `length - 4` characters of a ".csv" name are its base. -/
theorem take_sub4 (f : String) (b : List Char)
    (hb : f.data = b ++ ['.', 'c', 's', 'v']) :
    f.data.take (f.data.length - 4) = b := by
  rw [hb]
  have hl : (b ++ ['.', 'c', 's', 'v']).length - 4 = b.length := by simp
  rw [hl, List.take_left]

/-- On a ".csv" name whose base holds a non-dot character,
`os.path.splitext` cuts exactly the ".csv" extension. -/
theorem splitextBase_csv (f : String) (b : List Char)
    (hb : f.data = b ++ ['.', 'c', 's', 'v'])
    (hgood : b.any (fun c => decide (c ≠ '.')) = true) :
    splitextBase f = String.mk b := by
  have hrev : f.data.reverse = 'v' :: 's' :: 'c' :: '.' :: b.reverse := by
    rw [hb]; simp
  have hidx : f.data.reverse.findIdx? (fun c => c = '.') = some 3 := by
    rw [hrev]; simp [List.findIdx?_cons]
  have htakeb : f.data.take (f.data.length - 1 - 3) = b := by
    rw [hb]
    have hl : (b ++ ['.', 'c', 's', 'v']).length - 1 - 3 = b.length := by simp
    rw [hl, List.take_left]
  rw [splitextBase, hidx]
  dsimp only
  rw [htakeb, if_pos hgood]

/-- The claim-side extension stripping agrees with the base of a ".csv"
name. -/
theorem remove_csv_ext_eq (f : String) (b : List Char)
    (hb : f.data = b ++ ['.', 'c', 's', 'v']) :
    remove_csv_ext f = String.mk b := by
  rw [remove_csv_ext, take_sub4 f b hb]

/-- Putting the ".csv" extension back onto the base recovers the file
name. -/
theorem csv_append_base (f : String) (b : List Char)
    (hb : f.data = b ++ ['.', 'c', 's', 'v']) :
    String.mk b ++ ".csv" = f := by
  apply String.ext
  rw [hb]
  simp

/-- Zipping a mapped list with the original pairs each element with its
image. -/
theorem zip_map_self {α β : Type} (g : α → β) (l : List α) :
    (l.map g).zip l = l.map (fun a => (g a, a)) := by
  induction l with
  | nil => rfl
  | cons a t ih => simp [ih]

/-- Building a Python dict from pairs with pairwise distinct keys keeps
exactly those pairs in order. -/
theorem foldl_dictInsert (l : List (String × String)) :
    ∀ acc : List (String × String), (l.map Prod.fst).Nodup →
      (∀ p ∈ l, ∀ q ∈ acc, p.1 ≠ q.1) →
      l.foldl dictInsert acc = acc ++ l := by
  induction l with
  | nil =>
    intro acc _ _
    simp
  | cons p t ih =>
    intro acc h hd
    have hany : acc.any (fun e => decide (e.1 = p.1)) = false := by
      rw [List.any_eq_false]
      intro q hq
      simp only [decide_eq_true_eq]
      exact fun hqp => (hd p (List.mem_cons_self p t) q hq) hqp.symm
    have hins : dictInsert acc p = acc ++ [p] := by
      rw [dictInsert, if_neg (by simp [hany])]
    have hnotin : p.1 ∉ t.map Prod.fst := (List.nodup_cons.mp (by simpa using h)).1
    rw [List.foldl_cons, hins,
      ih (acc ++ [p]) (List.nodup_cons.mp (by simpa using h)).2 ?_]
    · rw [List.append_assoc]
      rfl
    · intro p2 hp2 q hq
      rcases List.mem_append.mp hq with hqa | hqp
      · exact hd p2 (List.mem_cons_of_mem _ hp2) q hqa
      · have : q = p := by simpa using hqp
        rw [this]
        intro hcontra
        exact hnotin (hcontra ▸ List.mem_map_of_mem Prod.fst hp2)

/-- A dict built from pairs with distinct keys is those pairs. -/
theorem dictOf_nodup (l : List (String × String))
    (h : (l.map Prod.fst).Nodup) : dictOf l = l := by
  have h2 := foldl_dictInsert l [] h (by intro p hp q hq; cases hq)
  simpa [dictOf] using h2

/-- Looking a key up in an association list built by pairing each element
with its image finds that element, when the key function is injective on
the list. -/
theorem dictGet_of_map (rm : String → String) (l : List String) (f : String)
    (hf : f ∈ l) (hinj : ∀ a ∈ l, rm a = rm f → a = f) :
    dictGet (l.map (fun c => (rm c, c))) (rm f) = some f := by
  induction l with
  | nil => cases hf
  | cons c t ih =>
    rw [List.map_cons]
    show (if rm c = rm f then some c else dictGet (t.map (fun c => (rm c, c))) (rm f)) =
      some f
    by_cases h : rm c = rm f
    · rw [if_pos h, hinj c (List.mem_cons_self c t) h]
    · rw [if_neg h]
      have hf2 : f ∈ t := by
        rcases List.mem_cons.mp hf with rfl | hft
        · exact absurd rfl h
        · exact hft
      exact ih hf2 (fun a ha hra => hinj a (List.mem_cons_of_mem _ ha) hra)

/-- Claim C7 counterexample: the choices are not always the file names
with ".csv" removed, and selecting an organization name does not always
load the file named after it.  A file named ".csv" (a legal hidden
file) is offered as ".csv", not as the empty string, because
`os.path.splitext` keeps a leading-dot name whole; and for a file named
"All.csv" the organization name is the reserved option "All", whose
selection loads every file: with files "All.csv" and "beta.csv" the
loaded frame holds both files' rows, not just the row of "All.csv". -/
theorem claim_C7_counterexample :
    dropdown_options [".csv"] ≠ ["All", remove_csv_ext ".csv"] ∧
    remove_csv_ext "All.csv" = "All" ∧
    (load_data demoRead (remove_csv_ext "All.csv")
        (org_to_file ["All.csv", "beta.csv"])).toOption.map Frame.rows =
      some [[("organization", some "All"), ("paragraph", some "a")],
            [("organization", some "beta"), ("paragraph", some "b")]] :=
  ⟨by decide, by decide, by decide⟩

/-- Claim C7 (amended): for directory listings whose CSV file names each
have a character other than '.' before the ".csv" suffix and none of
which is named after the reserved option "All", the data-source choices
are exactly "All" followed by the file names with ".csv" removed;
stripping is undone by appending ".csv", the organization-to-file dict
maps each such name to exactly the file named after it, and selecting
the name loads that file with every returned row's organization cell set
to the selected name.  (A leading-dot file such as ".csv" is offered
under its full name, and an organization named "All" is shadowed by the
union option — see the counterexample.) -/
theorem claim_C7 (files : List String) (hnd : files.Nodup)
    (hgood : ∀ f ∈ files, hasCsvExt f = true →
      (f.data.take (f.data.length - 4)).any (fun c => decide (c ≠ '.')) = true)
    (hall : ∀ f ∈ csv_files files, remove_csv_ext f ≠ "All") :
    dropdown_options files = "All" :: (csv_files files).map remove_csv_ext ∧
    (∀ f ∈ csv_files files, remove_csv_ext f ++ ".csv" = f) ∧
    (∀ f ∈ csv_files files,
      dictGet (org_to_file files) (remove_csv_ext f) = some f) ∧
    (∀ f ∈ csv_files files, ∀ (readCsv : String → Except String Frame) (frame : Frame),
      readCsv f = .ok frame → "paragraph" ∈ frame.cols →
      ∃ df, load_data readCsv (remove_csv_ext f) (org_to_file files) = .ok df ∧
        ∀ r ∈ df.rows, cellOf r "organization" = some (some (remove_csv_ext f))) := by
  have hcsv : ∀ f ∈ csv_files files, hasCsvExt f = true := by
    intro f hf
    exact (List.mem_filter.mp hf).2
  have hdec : ∀ f ∈ csv_files files, ∃ b, f.data = b ++ ['.', 'c', 's', 'v'] := by
    intro f hf
    exact csv_decomp f (hcsv f hf)
  have hbase : ∀ f ∈ csv_files files, splitextBase f = remove_csv_ext f := by
    intro f hf
    rcases hdec f hf with ⟨b, hb⟩
    have hg := hgood f (List.mem_of_mem_filter hf) (hcsv f hf)
    rw [take_sub4 f b hb] at hg
    rw [splitextBase_csv f b hb hg, remove_csv_ext_eq f b hb]
  have hround : ∀ f ∈ csv_files files, remove_csv_ext f ++ ".csv" = f := by
    intro f hf
    rcases hdec f hf with ⟨b, hb⟩
    rw [remove_csv_ext_eq f b hb]
    exact csv_append_base f b hb
  have hinj2 : ∀ f1 ∈ csv_files files, ∀ f2 ∈ csv_files files,
      remove_csv_ext f1 = remove_csv_ext f2 → f1 = f2 := by
    intro f1 h1 f2 h2 he
    rw [← hround f1 h1, ← hround f2 h2, he]
  have hnames : org_names files = (csv_files files).map remove_csv_ext :=
    List.map_congr_left hbase
  have hpairs : org_to_file files =
      (csv_files files).map (fun c => (remove_csv_ext c, c)) := by
    rw [org_to_file, hnames, zip_map_self]
    apply dictOf_nodup
    have hmfst : ((csv_files files).map
        (fun c => (remove_csv_ext c, c))).map Prod.fst =
          (csv_files files).map remove_csv_ext := by
      rw [List.map_map]
      exact List.map_congr_left (fun a _ => rfl)
    rw [hmfst]
    exact List.Nodup.map_on
      (fun x hx y hy h => hinj2 x hx y hy h) (hnd.filter _)
  have hget : ∀ f ∈ csv_files files,
      dictGet (org_to_file files) (remove_csv_ext f) = some f := by
    intro f hf
    rw [hpairs]
    exact dictGet_of_map remove_csv_ext (csv_files files) f hf
      (fun a ha hra => hinj2 a ha f hf hra)
  refine ⟨?_, hround, hget, ?_⟩
  · rw [dropdown_options, hnames]
  · intro f hf readCsv frame hread hpar
    have hld : load_data readCsv (remove_csv_ext f) (org_to_file files) =
        if "paragraph" ∈ (frame.setCol "organization" (remove_csv_ext f)).cols then
          .ok (frame.setCol "organization" (remove_csv_ext f))
        else .error "The selected CSV file must contain the required columns." := by
      rw [load_data, if_neg (hall f hf), hget f hf]
      dsimp only
      rw [hread]
    have hc : "paragraph" ∈ (frame.setCol "organization" (remove_csv_ext f)).cols := by
      rw [Frame.setCol]
      dsimp only
      split
      · exact hpar
      · exact List.mem_append_left _ hpar
    refine ⟨frame.setCol "organization" (remove_csv_ext f),
      by rw [hld, if_pos hc], ?_⟩
    intro r hr
    rw [Frame.setCol] at hr
    dsimp only at hr
    rcases List.mem_map.mp hr with ⟨r0, _, hr0⟩
    rw [← hr0]
    exact cellOf_setCell r0 "organization" (remove_csv_ext f)

/-- Witness for claim C7 (amended): a directory with two ordinary CSV
files and one non-CSV file. -/
theorem claim_C7_witness :
    (["acme.csv", "notes.txt", "beta.csv"] : List String).Nodup ∧
    (∀ f ∈ (["acme.csv", "notes.txt", "beta.csv"] : List String),
      hasCsvExt f = true →
        (f.data.take (f.data.length - 4)).any (fun c => decide (c ≠ '.')) = true) ∧
    (∀ f ∈ csv_files ["acme.csv", "notes.txt", "beta.csv"],
      remove_csv_ext f ≠ "All") ∧
    dropdown_options ["acme.csv", "notes.txt", "beta.csv"] =
      "All" :: (csv_files ["acme.csv", "notes.txt", "beta.csv"]).map remove_csv_ext :=
  ⟨by decide, by decide, by decide,
   (claim_C7 ["acme.csv", "notes.txt", "beta.csv"]
     (by decide) (by decide) (by decide)).1⟩
